import Mathlib

/-
Verification of the nonlinear-solver module (`nonlinear_solvers/solvers.py`).

The module provides three operations over caller-supplied real-to-real
function handles:
  * `newton_raphson f df x0 eps max_its` — Newton-Raphson iteration,
  * `bisection f x0 x1 eps max_its`      — interval bisection,
  * `solve f df x0 x1 eps max_its_n max_its_b` — Newton first, falling back
    to bisection exactly when Newton raised `ConvergenceError`.

We model real numbers by `ℚ` so that every definition is executable and all
concrete runs can be checked by `decide`/`rfl`.  Raised exceptions are
modelled by an explicit `Outcome` sum type: `ConvergenceError` (carrying the
exhausted iteration budget), `ValueError` for an invalid bracket (carrying
both endpoints), and the `ZeroDivisionError` arithmetic fault that Python
raises when `df(x) == 0` in the Newton update.  Instrumented variants
(`…T`) additionally count evaluations of the caller-supplied handles, in
the exact order the Python source performs them.
-/

namespace NonlinearSolvers

/-- Result of a solver call: either a returned value, or one of the raised
exception kinds of `solvers.py`: `ConvergenceError` carrying the exhausted
iteration budget, the `ValueError` raised for an invalid bracket naming both
endpoints, or the `ZeroDivisionError` arithmetic fault. -/
inductive Outcome where
  | success : ℚ → Outcome
  | convergenceError : Nat → Outcome
  | invalidBracket : ℚ → ℚ → Outcome
  | zeroDivisionError : Outcome
  deriving DecidableEq

/-- Sign test used by `bisection`: the Python expression `v < 0`.  Zero is
classed with the positive side. -/
def sign_negative (v : ℚ) : Bool := decide (v < 0)

/-- One Newton-Raphson update `x ← x - f(x)/df(x)` (the Python statement
`x_0 -= f(x_0) / df(x_0)`), as a total function on `ℚ`. -/
def newtonStep (f df : ℚ → ℚ) (x : ℚ) : ℚ := x - f x / df x

/-- The mathematical sequence of Newton iterates starting from `x0`. -/
def newtonSeq (f df : ℚ → ℚ) (x0 : ℚ) : Nat → ℚ
  | 0 => x0
  | n + 1 => newtonStep f df (newtonSeq f df x0 n)

/-- The `for _ in range(max_its)` loop of `newton_raphson`: with `n` loop
iterations remaining, update `x`, return it if `abs(f(x)) < eps`, otherwise
continue; raise `ConvergenceError max_its` when the budget is exhausted.
`df x = 0` raises the `ZeroDivisionError` fault, as in Python, after
evaluating `f x` and `df x`. -/
def newtonLoop (f df : ℚ → ℚ) (eps : ℚ) (max_its : Nat) : ℚ → Nat → Outcome
  | _, 0 => Outcome.convergenceError max_its
  | x, n + 1 =>
    if df x = 0 then Outcome.zeroDivisionError
    else
      let y := newtonStep f df x
      if |f y| < eps then Outcome.success y
      else newtonLoop f df eps max_its y n

/-- `newton_raphson(f, df, x_0, eps, max_its)` from `solvers.py`. -/
def newton_raphson (f df : ℚ → ℚ) (x0 eps : ℚ) (max_its : Nat) : Outcome :=
  newtonLoop f df eps max_its x0 max_its

/-- The endpoint update of one bisection iteration on a non-converged
midpoint: `x_0 ← x_2` when `(f(x_2) < 0) == (f(x_0) < 0)`, else
`x_1 ← x_2`. -/
def bisectUpdate (f : ℚ → ℚ) (x0 x1 : ℚ) : ℚ × ℚ :=
  let x2 := (x0 + x1) / 2
  if sign_negative (f x2) = sign_negative (f x0) then (x2, x1) else (x0, x2)

/-- The `for _ in range(max_its)` loop of `bisection`: take the midpoint,
return it if `abs(f(x_2)) < eps`, otherwise narrow the bracket with
`bisectUpdate`; raise `ConvergenceError max_its` when the budget is
exhausted. -/
def bisectionLoop (f : ℚ → ℚ) (eps : ℚ) (max_its : Nat) : ℚ → ℚ → Nat → Outcome
  | _, _, 0 => Outcome.convergenceError max_its
  | x0, x1, n + 1 =>
    let x2 := (x0 + x1) / 2
    if |f x2| < eps then Outcome.success x2
    else
      let p := bisectUpdate f x0 x1
      bisectionLoop f eps max_its p.1 p.2 n

/-- `bisection(f, x_0, x_1, eps, max_its)` from `solvers.py`: raise
`ValueError` naming both endpoints when `(f(x_0) < 0) == (f(x_1) < 0)`,
else run the loop. -/
def bisection (f : ℚ → ℚ) (x0 x1 eps : ℚ) (max_its : Nat) : Outcome :=
  if sign_negative (f x0) = sign_negative (f x1) then Outcome.invalidBracket x0 x1
  else bisectionLoop f eps max_its x0 x1 max_its

/-- `solve(f, df, x_0, x_1, eps, max_its_n, max_its_b)` from `solvers.py`:
try Newton-Raphson; the `except ConvergenceError` clause catches exactly
that kind and falls back to bisection, every other outcome is returned or
propagated unchanged. -/
def solve (f df : ℚ → ℚ) (x0 x1 eps : ℚ) (max_its_n max_its_b : Nat) : Outcome :=
  match newton_raphson f df x0 eps max_its_n with
  | Outcome.convergenceError _ => bisection f x0 x1 eps max_its_b
  | o => o

/-- Whether the `except ConvergenceError` branch of `solve` runs, i.e.
whether the bracketing solver is invoked at all. -/
def solveInvokesBisection (f df : ℚ → ℚ) (x0 eps : ℚ) (max_its_n : Nat) : Bool :=
  match newton_raphson f df x0 eps max_its_n with
  | Outcome.convergenceError _ => true
  | _ => false

/-- Instrumented Newton loop: second component counts evaluations of the
caller-supplied handles `f` and `df`, in Python evaluation order.  A full
iteration evaluates `f x`, `df x` and then `f y` for the tolerance check
(3 evaluations); an iteration aborted by the division-by-zero fault has
evaluated `f x` and `df x` (2 evaluations). -/
def newtonLoopT (f df : ℚ → ℚ) (eps : ℚ) (max_its : Nat) : ℚ → Nat → Outcome × Nat
  | _, 0 => (Outcome.convergenceError max_its, 0)
  | x, n + 1 =>
    if df x = 0 then (Outcome.zeroDivisionError, 2)
    else
      let y := newtonStep f df x
      if |f y| < eps then (Outcome.success y, 3)
      else
        let r := newtonLoopT f df eps max_its y n
        (r.1, 3 + r.2)

/-- Instrumented `newton_raphson`: outcome together with the number of
handle evaluations performed. -/
def newtonRaphsonT (f df : ℚ → ℚ) (x0 eps : ℚ) (max_its : Nat) : Outcome × Nat :=
  newtonLoopT f df eps max_its x0 max_its

/-- Instrumented bisection loop: second component counts evaluations of `f`
inside the loop.  A returning iteration evaluates `f x_2` once; a narrowing
iteration additionally evaluates `f x_2` and `f x_0` in the `elif` test
(3 evaluations in total). -/
def bisectionLoopT (f : ℚ → ℚ) (eps : ℚ) (max_its : Nat) : ℚ → ℚ → Nat → Outcome × Nat
  | _, _, 0 => (Outcome.convergenceError max_its, 0)
  | x0, x1, n + 1 =>
    let x2 := (x0 + x1) / 2
    if |f x2| < eps then (Outcome.success x2, 1)
    else
      let p := bisectUpdate f x0 x1
      let r := bisectionLoopT f eps max_its p.1 p.2 n
      (r.1, 3 + r.2)

/-- Instrumented `bisection`: the entry sign test always evaluates `f x_0`
and `f x_1` (2 evaluations) before any loop iteration runs. -/
def bisectionT (f : ℚ → ℚ) (x0 x1 eps : ℚ) (max_its : Nat) : Outcome × Nat :=
  if sign_negative (f x0) = sign_negative (f x1) then (Outcome.invalidBracket x0 x1, 2)
  else
    let r := bisectionLoopT f eps max_its x0 x1 max_its
    (r.1, 2 + r.2)

/-- The bracket invariant: the two endpoints fall into opposite sign classes
under `sign_negative`. -/
def bracketInv (f : ℚ → ℚ) (x0 x1 : ℚ) : Prop :=
  sign_negative (f x0) ≠ sign_negative (f x1)

/-- The sequence of bracket states at the start of each bisection
iteration: `none` once the loop has returned a midpoint within tolerance,
otherwise the current endpoint pair, narrowed by `bisectUpdate` each
step. -/
def bisectStates (f : ℚ → ℚ) (eps x0 x1 : ℚ) : Nat → Option (ℚ × ℚ)
  | 0 => some (x0, x1)
  | k + 1 =>
    match bisectStates f eps x0 x1 k with
    | none => none
    | some (a, b) =>
      if |f ((a + b) / 2)| < eps then none
      else some (bisectUpdate f a b)

/-- Concrete handle `f(x) = x - 2`. -/
def fLin (x : ℚ) : ℚ := x - 2

/-- Concrete handle `df(x) = 1`. -/
def dfOne (_ : ℚ) : ℚ := 1

/-- Concrete handle `f(x) = 1`. -/
def fOne (_ : ℚ) : ℚ := 1

/-- Concrete handle `df(x) = 0`. -/
def dfZero (_ : ℚ) : ℚ := 0

/-- Concrete handle `f(x) = x - 1/3`, whose root is never a midpoint of a
dyadic bisection run started from `[0, 1]`. -/
def fThird (x : ℚ) : ℚ := x - 1/3

/-- Concrete handle `f(x) = x`. -/
def fId (x : ℚ) : ℚ := x

/-- The bisection loop never raises the invalid-bracket error: that error is
produced only by the entry test. -/
lemma bisectionLoop_ne_invalid (f : ℚ → ℚ) (eps : ℚ) (M : Nat) :
    ∀ n a b u v, bisectionLoop f eps M a b n ≠ Outcome.invalidBracket u v := by
  intro n
  induction n with
  | zero => intro a b u v h; exact Outcome.noConfusion h
  | succ n ih =>
    intro a b u v h
    simp only [bisectionLoop] at h
    split at h
    · exact Outcome.noConfusion h
    · exact ih _ _ u v h

/-- C10: with `max_its = 0` the Newton loop body never runs: the solver
raises `ConvergenceError` at once (carrying the attempted count 0) and the
handles `f` and `df` are evaluated zero times, regardless of `x0`. -/
theorem newton_zero_budget (f df : ℚ → ℚ) (x0 eps : ℚ) :
    newton_raphson f df x0 eps 0 = Outcome.convergenceError 0 ∧
    (newtonRaphsonT f df x0 eps 0).2 = 0 :=
  ⟨rfl, rfl⟩

/-- C1: `solve` tries Newton-Raphson first and its `except` clause is
narrow: when Newton fails with `ConvergenceError` (any carried count),
`solve` is exactly the bisection fallback; for every other Newton outcome
(a success, or the `ZeroDivisionError` arithmetic fault) `solve` returns
that outcome unchanged and the bracketing solver is never invoked. -/
theorem solve_narrow_catch (f df : ℚ → ℚ) (x0 x1 eps : ℚ) (mn mb : Nat) :
    (∀ k, newton_raphson f df x0 eps mn = Outcome.convergenceError k →
      solve f df x0 x1 eps mn mb = bisection f x0 x1 eps mb ∧
      solveInvokesBisection f df x0 eps mn = true) ∧
    ((∀ k, newton_raphson f df x0 eps mn ≠ Outcome.convergenceError k) →
      solve f df x0 x1 eps mn mb = newton_raphson f df x0 eps mn ∧
      solveInvokesBisection f df x0 eps mn = false) := by
  constructor
  · intro k hk
    unfold solve solveInvokesBisection
    rw [hk]
    exact ⟨rfl, rfl⟩
  · intro hne
    unfold solve solveInvokesBisection
    cases ho : newton_raphson f df x0 eps mn with
    | success v => exact ⟨rfl, rfl⟩
    | convergenceError k => exact absurd ho (hne k)
    | invalidBracket a b => exact ⟨rfl, rfl⟩
    | zeroDivisionError => exact ⟨rfl, rfl⟩

/-- Witness for C1 at a concrete arithmetic fault: `f(x) = 1`, `df(x) = 0`
makes Newton raise `ZeroDivisionError`, which `solve` propagates unchanged
without invoking bisection. -/
theorem solve_narrow_catch_witness :
    solve fOne dfZero 0 9 (1/2) 5 5 = newton_raphson fOne dfZero 0 (1/2) 5 ∧
    solveInvokesBisection fOne dfZero 0 (1/2) 5 = false :=
  (solve_narrow_catch fOne dfZero 0 9 (1/2) 5 5).2 (fun _ h => Outcome.noConfusion h)

/-- C2: when Newton-Raphson succeeds, `solve` returns exactly the Newton
result, the bracketing solver is never invoked, and the bracket endpoint
`x1` has no effect on the result. -/
theorem solve_returns_newton_success (f df : ℚ → ℚ) (x0 x1 eps : ℚ) (mn mb : Nat) (v : ℚ)
    (h : newton_raphson f df x0 eps mn = Outcome.success v) :
    solve f df x0 x1 eps mn mb = Outcome.success v ∧
    solveInvokesBisection f df x0 eps mn = false ∧
    ∀ y, solve f df x0 y eps mn mb = solve f df x0 x1 eps mn mb := by
  unfold solve solveInvokesBisection
  rw [h]
  exact ⟨rfl, rfl, fun y => rfl⟩

/-- Witness for C2: `f(x) = x - 2`, `df(x) = 1` from `x0 = 0` converges in
one Newton step to `2`. -/
theorem solve_returns_newton_success_witness :
    solve fLin dfOne 0 7 (1/100000) 20 20 = Outcome.success 2 ∧
    solveInvokesBisection fLin dfOne 0 (1/100000) 20 = false ∧
    ∀ y, solve fLin dfOne 0 y (1/100000) 20 20 = solve fLin dfOne 0 7 (1/100000) 20 20 :=
  solve_returns_newton_success fLin dfOne 0 7 (1/100000) 20 20 2 (by with_unfolding_all decide)

/-- C4: `bisection` raises the invalid-bracket error, naming both
endpoints, exactly when `f x0` and `f x1` fall in the same sign class
under `sign_negative` (zero classed with the positive side); in that case
only the two entry evaluations of `f` happen and the loop performs zero
iterations. -/
theorem bisection_invalid_bracket_iff (f : ℚ → ℚ) (x0 x1 eps : ℚ) (M : Nat) :
    (bisection f x0 x1 eps M = Outcome.invalidBracket x0 x1 ↔
      sign_negative (f x0) = sign_negative (f x1)) ∧
    (sign_negative (f x0) = sign_negative (f x1) →
      bisectionT f x0 x1 eps M = (Outcome.invalidBracket x0 x1, 2)) := by
  refine ⟨⟨fun h => ?_, fun he => ?_⟩, fun he => ?_⟩
  · by_contra hne
    unfold bisection at h
    rw [if_neg hne] at h
    exact bisectionLoop_ne_invalid f eps M M x0 x1 x0 x1 h
  · unfold bisection
    rw [if_pos he]
  · unfold bisectionT
    rw [if_pos he]

/-- Witness for C4 at the spec's example `f(x) = x - 2`, `x0 = 3`,
`x1 = 5`: both values of `f` are positive, so the call must raise, not
loop. -/
theorem bisection_invalid_bracket_iff_witness :
    bisection fLin 3 5 (1/1000) 20 = Outcome.invalidBracket 3 5 ∧
    bisectionT fLin 3 5 (1/1000) 20 = (Outcome.invalidBracket 3 5, 2) :=
  ⟨(bisection_invalid_bracket_iff fLin 3 5 (1/1000) 20).1.mpr (by with_unfolding_all decide),
   (bisection_invalid_bracket_iff fLin 3 5 (1/1000) 20).2 (by with_unfolding_all decide)⟩

/-- C8: the solvers are pure functions of their inputs: two calls with
extensionally identical handles and identical numeric arguments produce
identical outcomes, with no hidden state. -/
theorem solvers_deterministic (f f' df df' : ℚ → ℚ) (x0 x1 eps : ℚ) (mn mb : Nat)
    (hf : ∀ x, f x = f' x) (hdf : ∀ x, df x = df' x) :
    newton_raphson f df x0 eps mn = newton_raphson f' df' x0 eps mn ∧
    bisection f x0 x1 eps mb = bisection f' x0 x1 eps mb ∧
    solve f df x0 x1 eps mn mb = solve f' df' x0 x1 eps mn mb := by
  have h1 : f = f' := funext hf
  have h2 : df = df' := funext hdf
  subst h1
  subst h2
  exact ⟨rfl, rfl, rfl⟩

/-- Witness for C8: two textually separate but extensionally equal handles
for `f(x) = x - 2` give identical results on all three solvers. -/
theorem solvers_deterministic_witness :
    newton_raphson fLin dfOne 0 (1/2) 3 = newton_raphson (fun x => x - 2) dfOne 0 (1/2) 3 ∧
    bisection fLin 0 3 (1/2) 3 = bisection (fun x => x - 2) 0 3 (1/2) 3 ∧
    solve fLin dfOne 0 3 (1/2) 3 3 = solve (fun x => x - 2) dfOne 0 3 (1/2) 3 3 :=
  solvers_deterministic fLin (fun x => x - 2) dfOne dfOne 0 3 (1/2) 3 3
    (fun _ => rfl) (fun _ => rfl)

/-- The bisection loop either returns a midpoint within tolerance or
exhausts its budget with `ConvergenceError`. -/
lemma bisectionLoop_tolerance_or_budget (f : ℚ → ℚ) (eps : ℚ) (M : Nat) :
    ∀ n a b, (∃ r, bisectionLoop f eps M a b n = Outcome.success r ∧ |f r| < eps) ∨
      bisectionLoop f eps M a b n = Outcome.convergenceError M := by
  intro n
  induction n with
  | zero => intro a b; exact Or.inr rfl
  | succ n ih =>
    intro a b
    by_cases hc : |f ((a + b) / 2)| < eps
    · refine Or.inl ⟨(a + b) / 2, ?_, hc⟩
      simp only [bisectionLoop]
      rw [if_pos hc]
    · have := ih (bisectUpdate f a b).1 (bisectUpdate f a b).2
      simpa only [bisectionLoop, if_neg hc] using this

/-- C6 (amended): with a bracket whose endpoints lie in strictly opposite
sign classes, `bisection` either returns a value `r` with `|f r| < eps` or
fails with `ConvergenceError` carrying `max_its`; it never raises the
invalid-bracket error and every returned value meets the tolerance.
Success for every positive `max_its` is not guaranteed. -/
theorem bisection_tolerance_or_budget (f : ℚ → ℚ) (x0 x1 eps : ℚ) (M : Nat)
    (h : sign_negative (f x0) ≠ sign_negative (f x1)) :
    (∃ r, bisection f x0 x1 eps M = Outcome.success r ∧ |f r| < eps) ∨
    bisection f x0 x1 eps M = Outcome.convergenceError M := by
  unfold bisection
  rw [if_neg h]
  exact bisectionLoop_tolerance_or_budget f eps M M x0 x1

/-- Witness for the amended C6: `f(x) = x` on the bracket `[-1, 1]`. -/
theorem bisection_tolerance_or_budget_witness :
    (∃ r, bisection fId (-1) 1 (1/1000) 1 = Outcome.success r ∧ |fId r| < 1/1000) ∨
    bisection fId (-1) 1 (1/1000) 1 = Outcome.convergenceError 1 :=
  bisection_tolerance_or_budget fId (-1) 1 (1/1000) 1 (by with_unfolding_all decide)

/-- Counterexample to C6 as stated: `f(x) = x - 1/3` has its zero `1/3`
inside `[0, 1]`, the endpoint sign classes are strictly opposite, `eps` and
`max_its` are positive, yet with `max_its = 1` the call exhausts its budget
and raises `ConvergenceError` instead of returning a value within
tolerance. -/
theorem bisection_tolerance_cex :
    sign_negative (fThird 0) ≠ sign_negative (fThird 1) ∧
    fThird (1/3) = 0 ∧ (0:ℚ) ≤ 1/3 ∧ (1/3:ℚ) ≤ 1 ∧
    (0:ℚ) < 1/1000 ∧ (0:Nat) < 1 ∧
    bisection fThird 0 1 (1/1000) 1 = Outcome.convergenceError 1 := by
  with_unfolding_all decide

/-- The instrumented Newton loop performs at most 3 handle evaluations per
available iteration. -/
lemma newtonLoopT_le (f df : ℚ → ℚ) (eps : ℚ) (M : Nat) :
    ∀ n x, (newtonLoopT f df eps M x n).2 ≤ 3 * n := by
  intro n
  induction n with
  | zero => intro x; exact Nat.le_refl 0
  | succ n ih =>
    intro x
    simp only [newtonLoopT]
    split
    · omega
    · split
      · simp only []
        omega
      · have := ih (newtonStep f df x)
        simp only []
        omega

/-- The instrumented bisection loop evaluates `f` at most 3 times per
available iteration. -/
lemma bisectionLoopT_le (f : ℚ → ℚ) (eps : ℚ) (M : Nat) :
    ∀ n a b, (bisectionLoopT f eps M a b n).2 ≤ 3 * n := by
  intro n
  induction n with
  | zero => intro a b; exact Nat.le_refl 0
  | succ n ih =>
    intro a b
    simp only [bisectionLoopT]
    split
    · omega
    · have := ih (bisectUpdate f a b).1 (bisectUpdate f a b).2
      simp only []
      omega

/-- C7 (amended): per call, the Newton solver evaluates the handles `f` and
`df` at most `3 × max_its` times combined (each full iteration costs 3:
`f x`, `df x`, and the tolerance check), and the bisection loop evaluates
`f` at most `3 × max_its` times (each narrowing iteration costs 3).  The
spec's `2 × max_its` bound is too small. -/
theorem handle_eval_bound (f df : ℚ → ℚ) (x0 x1 eps : ℚ) (mn mb : Nat) :
    (newtonRaphsonT f df x0 eps mn).2 ≤ 3 * mn ∧
    (bisectionLoopT f eps mb x0 x1 mb).2 ≤ 3 * mb :=
  ⟨newtonLoopT_le f df eps mn mn x0, bisectionLoopT_le f eps mb mb x0 x1⟩

/-- Counterexample to C7 as stated: with `max_its = 1`, a non-converging
Newton run (`f(x) = 1`, `df(x) = 1`) performs 3 handle evaluations, and a
non-converging bisection loop iteration (`f(x) = x - 1/3` on `[0, 1]`)
performs 3 evaluations of `f`; both exceed `2 × max_its = 2`. -/
theorem handle_eval_bound_cex :
    (newtonRaphsonT fOne dfOne 0 (1/2) 1).2 = 3 ∧
    ¬ (newtonRaphsonT fOne dfOne 0 (1/2) 1).2 ≤ 2 * 1 ∧
    (bisectionLoopT fThird (1/1000) 1 0 1 1).2 = 3 ∧
    ¬ (bisectionLoopT fThird (1/1000) 1 0 1 1).2 ≤ 2 * 1 := by
  with_unfolding_all decide

/-- One endpoint update preserves the opposite-sign-class invariant: the
midpoint replaces whichever endpoint shares its sign class. -/
lemma bisectUpdate_bracketInv (f : ℚ → ℚ) (a b : ℚ) (h : bracketInv f a b) :
    bracketInv f (bisectUpdate f a b).1 (bisectUpdate f a b).2 := by
  unfold bracketInv at h ⊢
  unfold bisectUpdate
  by_cases hc : sign_negative (f ((a + b) / 2)) = sign_negative (f a)
  · rw [if_pos hc]
    simpa [hc] using h
  · rw [if_neg hc]
    exact fun he => hc he.symm

/-- C5: starting from a bracket that passes the entry sign test, the
endpoint pair at the start of every bisection iteration keeps the two
endpoints in opposite sign classes under `sign_negative`: the midpoint
update preserves the invariant at every step. -/
theorem bisection_bracket_invariant (f : ℚ → ℚ) (eps x0 x1 : ℚ)
    (h : bracketInv f x0 x1) :
    ∀ k p, bisectStates f eps x0 x1 k = some p → bracketInv f p.1 p.2 := by
  intro k
  induction k with
  | zero =>
    intro p hp
    simp only [bisectStates, Option.some.injEq] at hp
    rw [← hp]
    exact h
  | succ k ih =>
    intro p hp
    simp only [bisectStates] at hp
    cases hq : bisectStates f eps x0 x1 k with
    | none => rw [hq] at hp; exact Option.noConfusion hp
    | some q =>
      obtain ⟨a, b⟩ := q
      rw [hq] at hp
      simp only at hp
      split at hp
      · exact Option.noConfusion hp
      · simp only [Option.some.injEq] at hp
        rw [← hp]
        exact bisectUpdate_bracketInv f a b (ih (a, b) hq)

/-- Witness for C5: for `f(x) = x - 1/3` from the bracket `[0, 1]`, the
state after one iteration is `(0, 1/2)` and still satisfies the
invariant. -/
theorem bisection_bracket_invariant_witness :
    bracketInv fThird 0 (1/2) :=
  bisection_bracket_invariant fThird (1/1000) 0 1
    (show sign_negative (fThird 0) ≠ sign_negative (fThird 1) by with_unfolding_all decide)
    1 (0, 1/2) (by with_unfolding_all decide)

/-- A successful bisection loop run started inside `[lo, hi]` returns a
value inside `[lo, hi]`: every midpoint of two points of the interval lies
in the interval. -/
lemma bisectionLoop_mem (f : ℚ → ℚ) (eps : ℚ) (M : Nat) (lo hi : ℚ) :
    ∀ n a b, lo ≤ a → a ≤ hi → lo ≤ b → b ≤ hi →
      ∀ r, bisectionLoop f eps M a b n = Outcome.success r → lo ≤ r ∧ r ≤ hi := by
  intro n
  induction n with
  | zero => intro a b _ _ _ _ r hr; exact Outcome.noConfusion hr
  | succ n ih =>
    intro a b ha1 ha2 hb1 hb2 r hr
    have hm1 : lo ≤ (a + b) / 2 := by linarith
    have hm2 : (a + b) / 2 ≤ hi := by linarith
    simp only [bisectionLoop] at hr
    split at hr
    · cases hr
      exact ⟨hm1, hm2⟩
    · unfold bisectUpdate at hr
      by_cases hc : sign_negative (f ((a + b) / 2)) = sign_negative (f a)
      · rw [if_pos hc] at hr
        exact ih ((a + b) / 2) b hm1 hm2 hb1 hb2 r hr
      · rw [if_neg hc] at hr
        exact ih a ((a + b) / 2) ha1 ha2 hm1 hm2 r hr

/-- C9: every value returned successfully by `bisection` lies in the closed
interval between the original endpoints. -/
theorem bisection_result_in_bracket (f : ℚ → ℚ) (x0 x1 eps : ℚ) (M : Nat) (r : ℚ)
    (h : bisection f x0 x1 eps M = Outcome.success r) :
    min x0 x1 ≤ r ∧ r ≤ max x0 x1 := by
  unfold bisection at h
  by_cases hs : sign_negative (f x0) = sign_negative (f x1)
  · rw [if_pos hs] at h
    exact Outcome.noConfusion h
  · rw [if_neg hs] at h
    exact bisectionLoop_mem f eps M (min x0 x1) (max x0 x1) M x0 x1
      (min_le_left x0 x1) (le_max_left x0 x1) (min_le_right x0 x1) (le_max_right x0 x1) r h

/-- Witness for C9: `f(x) = x` on `[-1, 1]` returns the midpoint `0`, which
lies between `-1` and `1`. -/
theorem bisection_result_in_bracket_witness :
    min (-1 : ℚ) 1 ≤ 0 ∧ (0 : ℚ) ≤ max (-1 : ℚ) 1 :=
  bisection_result_in_bracket fId (-1) 1 (1/1000) 1 0 (by with_unfolding_all decide)

/-- Shifting the start of the Newton iterate sequence by one step. -/
lemma newtonSeq_shift (f df : ℚ → ℚ) (x0 : ℚ) :
    ∀ n, newtonSeq f df x0 (n + 1) = newtonSeq f df (newtonStep f df x0) n := by
  intro n
  induction n with
  | zero => rfl
  | succ n ih =>
    show newtonStep f df (newtonSeq f df x0 (n + 1)) = _
    rw [ih]
    rfl

/-- When no iterate within the budget meets the tolerance and no visited
iterate has vanishing derivative, the Newton loop exhausts its budget. -/
lemma newtonLoop_conv (f df : ℚ → ℚ) (eps : ℚ) (M : Nat) :
    ∀ n x, (∀ j, j < n → df (newtonSeq f df x j) ≠ 0) →
      (∀ m, 1 ≤ m → m ≤ n → ¬ |f (newtonSeq f df x m)| < eps) →
      newtonLoop f df eps M x n = Outcome.convergenceError M := by
  intro n
  induction n with
  | zero => intro x _ _; rfl
  | succ n ih =>
    intro x hdf hm
    have h0 : df x ≠ 0 := hdf 0 (Nat.succ_pos n)
    have h1 : ¬ |f (newtonStep f df x)| < eps :=
      hm 1 le_rfl (Nat.succ_le_succ (Nat.zero_le n))
    simp only [newtonLoop]
    rw [if_neg h0]
    simp only [if_neg h1]
    exact ih (newtonStep f df x)
      (fun j hj => by
        rw [← newtonSeq_shift]
        exact hdf (j + 1) (Nat.succ_lt_succ hj))
      (fun m hm1 hm2 => by
        rw [← newtonSeq_shift]
        exact hm (m + 1) (Nat.le_succ_of_le hm1) (Nat.succ_le_succ hm2))

/-- When the `N`-th updated iterate is the first to meet the tolerance and
the budget allows reaching it, the Newton loop returns exactly that
iterate. -/
lemma newtonLoop_first_success (f df : ℚ → ℚ) (eps : ℚ) (M : Nat) :
    ∀ n x N, 1 ≤ N → N ≤ n →
      (∀ j, j < N → df (newtonSeq f df x j) ≠ 0) →
      |f (newtonSeq f df x N)| < eps →
      (∀ m, 1 ≤ m → m < N → ¬ |f (newtonSeq f df x m)| < eps) →
      newtonLoop f df eps M x n = Outcome.success (newtonSeq f df x N) := by
  intro n
  induction n with
  | zero => intro x N h1 h2 _ _ _; omega
  | succ n ih =>
    intro x N h1 h2 hdf hN hfirst
    have h0 : df x ≠ 0 := hdf 0 (Nat.lt_of_lt_of_le Nat.zero_lt_one h1)
    simp only [newtonLoop]
    rw [if_neg h0]
    by_cases hN1 : N = 1
    · subst hN1
      have hy : |f (newtonStep f df x)| < eps := hN
      simp only [if_pos hy]
      rfl
    · have hnot : ¬ |f (newtonStep f df x)| < eps := hfirst 1 le_rfl (by omega)
      simp only [if_neg hnot]
      have hstep := ih (newtonStep f df x) (N - 1) (by omega) (by omega)
        (fun j hj => by
          rw [← newtonSeq_shift]
          exact hdf (j + 1) (by omega))
        (by
          rw [← newtonSeq_shift]
          have he : N - 1 + 1 = N := by omega
          rw [he]
          exact hN)
        (fun m hm1 hm2 => by
          rw [← newtonSeq_shift]
          exact hfirst (m + 1) (by omega) (by omega))
      rw [hstep, ← newtonSeq_shift]
      have he : N - 1 + 1 = N := by omega
      rw [he]

/-- C3: with positive tolerance and budget, provided `df` does not vanish
at the visited iterates, `newton_raphson` follows the sequence
`x ← x − f(x)/df(x)` from `x0` and returns the first updated iterate
(indices start at 1: the initial guess is never checked) whose residual is
within tolerance, when one occurs within `max_its` steps; otherwise it
fails with `ConvergenceError` carrying the attempted iteration count
`max_its`. -/
theorem newton_first_updated_iterate (f df : ℚ → ℚ) (x0 eps : ℚ) (M : Nat)
    (_heps : 0 < eps) (_hM : 0 < M) :
    ((∀ j, j < M → df (newtonSeq f df x0 j) ≠ 0) →
      (∀ m, 1 ≤ m → m ≤ M → ¬ |f (newtonSeq f df x0 m)| < eps) →
      newton_raphson f df x0 eps M = Outcome.convergenceError M) ∧
    (∀ N, 1 ≤ N → N ≤ M →
      (∀ j, j < N → df (newtonSeq f df x0 j) ≠ 0) →
      |f (newtonSeq f df x0 N)| < eps →
      (∀ m, 1 ≤ m → m < N → ¬ |f (newtonSeq f df x0 m)| < eps) →
      newton_raphson f df x0 eps M = Outcome.success (newtonSeq f df x0 N)) :=
  ⟨fun hdf hm => newtonLoop_conv f df eps M M x0 hdf hm,
   fun N h1 h2 hdf hN hfirst =>
     newtonLoop_first_success f df eps M M x0 N h1 h2 hdf hN hfirst⟩

/-- Witness for C3: `f(x) = x - 2`, `df(x) = 1` from `x0 = 0` meets the
tolerance at the first updated iterate, `newtonSeq 1 = 2`. -/
theorem newton_first_updated_iterate_witness :
    newton_raphson fLin dfOne 0 (1/100000) 3 = Outcome.success (newtonSeq fLin dfOne 0 1) :=
  (newton_first_updated_iterate fLin dfOne 0 (1/100000) 3
      (by with_unfolding_all decide) (by decide)).2
    1 le_rfl (by decide)
    (fun j _ => one_ne_zero)
    (by with_unfolding_all decide)
    (fun m hm1 hm2 => absurd (Nat.lt_of_le_of_lt hm1 hm2) (lt_irrefl 1))

end NonlinearSolvers
